import Mathlib

/-!
Shallow embedding of `update.py` from the sharadar-download-manager
repository, together with theorems settling the frozen claims about its
specification.

Modelling conventions:
* Calendar dates are modelled by `Ymd` (year/month/day) with arithmetic via
  a day count (days since 0000-03-01, the standard civil-calendar
  algorithm); `pd.to_datetime` on a `YYYY-MM-DD` string is `parseDate`,
  `strftime` is `Ymd.fmt`, and `pd.Timedelta` arithmetic is
  `addDays`/`subDays`.
* The SQLite database is an association list from table name to the list
  of its rows, in insertion order; `to_sql(..., if_exists="append")` is
  `appendRows`, `DROP TABLE` is `dropTable`.  A row carries the value of
  the table's watermark column (a date string) and a ticker.  Tickers are
  opaque atoms to this program (it only stores, compares and partitions
  them), so the ticker type is a parameter `α` with a boolean comparison
  `tle` standing for Python's string order.
* SQL string comparison (`MAX` over a text column) and Python string
  comparison agree with code-point lexicographic order on the ASCII date
  strings involved; this is `strLe` below, written over `String.data`
  because the kernel cannot evaluate `String.decidableLE`.
* The Quandl client `quandl.get_table` is an oracle `Vendor α`: a function
  from the request (table, watermark-column range, optional ticker list)
  to either an exception (`Except.error`) or a list of rows.
* A Python exception that the code does not catch is modelled by
  `Except.error ()` bubbling out of the translated function; `return 1`
  in `download_table` is the distinguished value `DlResult.errSentinel`.
-/

namespace Sharadar

/-- A calendar date, year-month-day. -/
structure Ymd where
  y : Nat
  m : Nat
  d : Nat
deriving DecidableEq, Repr

/-- Days since 0000-03-01 of a civil date (standard civil-calendar
day-count algorithm, valid for the years ≥ 1 used by the program). -/
def Ymd.toDays (dt : Ymd) : Nat :=
  let yy := if dt.m ≤ 2 then dt.y - 1 else dt.y
  let mp := if dt.m ≤ 2 then dt.m + 9 else dt.m - 3
  365 * yy + yy / 4 - yy / 100 + yy / 400 + (153 * mp + 2) / 5 + (dt.d - 1)

/-- Civil date of a day count (inverse of `Ymd.toDays`). -/
def ofDays (z : Nat) : Ymd :=
  let era := z / 146097
  let doe := z % 146097
  let yoe := (doe - doe / 1460 + doe / 36524 - doe / 146096) / 365
  let yv := yoe + era * 400
  let doy := doe - (365 * yoe + yoe / 4 - yoe / 100)
  let mp := (5 * doy + 2) / 153
  let dv := doy - (153 * mp + 2) / 5 + 1
  let mv := if mp < 10 then mp + 3 else mp - 9
  if mv ≤ 2 then ⟨yv + 1, mv, dv⟩ else ⟨yv, mv, dv⟩

/-- Date plus `n` days (`pd.Timedelta` addition). -/
def addDays (dt : Ymd) (n : Nat) : Ymd := ofDays (dt.toDays + n)

/-- Date minus `n` days (`pd.Timedelta` subtraction). -/
def subDays (dt : Ymd) (n : Nat) : Ymd := ofDays (dt.toDays - n)

/-- Decimal digits of a positive number, most significant first
(fuel-driven so the kernel can evaluate it). -/
def natDigitsAux : Nat → Nat → List Char
  | 0, _ => []
  | _, 0 => []
  | fuel + 1, n => natDigitsAux fuel (n / 10) ++ [Char.ofNat (48 + n % 10)]

/-- Decimal rendering of a number (the model's `str`). -/
def natStr (n : Nat) : String :=
  if n = 0 then "0" else String.mk (natDigitsAux (n + 1) n)

/-- Two-digit zero padding, as in `strftime` month and day fields. -/
def pad2 (n : Nat) : String := if n < 10 then "0" ++ natStr n else natStr n

/-- Render a date as `YYYY-MM-DD` (`strftime` with the only format string
the program uses). -/
def Ymd.fmt (dt : Ymd) : String :=
  natStr dt.y ++ "-" ++ pad2 dt.m ++ "-" ++ pad2 dt.d

/-- Split a character list at a separator, keeping empty pieces (the
semantics of `str.split` on the inputs involved). -/
def splitOnChar (sep : Char) : List Char → List (List Char)
  | [] => [[]]
  | c :: rest =>
    let r := splitOnChar sep rest
    if c = sep then [] :: r
    else
      match r with
      | [] => [[c]]
      | h :: t => (c :: h) :: t

/-- Numeric value of a non-empty all-digit character list, `none`
otherwise (the model's `int(...)` on a date field). -/
def digitsVal (cs : List Char) : Option Nat :=
  cs.foldl
    (fun acc c =>
      match acc with
      | none => none
      | some a =>
        if 48 ≤ c.toNat ∧ c.toNat ≤ 57 then some (a * 10 + (c.toNat - 48))
        else none)
    (if cs.isEmpty then none else some 0)

/-- Parse a `YYYY-MM-DD` string (`pd.to_datetime` on the date strings the
program passes it); `none` models the parse exception. -/
def parseDate (s : String) : Option Ymd :=
  match splitOnChar (Char.ofNat 45) s.data with
  | [ys, ms, ds] =>
    match digitsVal ys, digitsVal ms, digitsVal ds with
    | some yv, some mv, some dv => some ⟨yv, mv, dv⟩
    | _, _, _ => none
  | _ => none

/-- Code-point lexicographic comparison of character lists. -/
def lexLe : List Char → List Char → Bool
  | [], _ => true
  | _ :: _, [] => false
  | a :: as, b :: bs =>
    if a.toNat < b.toNat then true
    else if b.toNat < a.toNat then false
    else lexLe as bs

/-- String comparison used for SQL `MAX` over a text column and for the
sort keys; agrees with memcmp order on the ASCII strings involved. -/
def strLe (a b : String) : Bool := lexLe a.data b.data

/-- Larger of two strings under `strLe`. -/
def strMax (a b : String) : String := if strLe a b then b else a

/-- Insert into a list sorted by the boolean relation `le` (helper of the
insertion sort used to model Python's `sorted` and pandas `sort_values`;
only the multiset of the output is relevant to the claims). -/
def insertLe (le : β → β → Bool) (x : β) : List β → List β
  | [] => [x]
  | y :: ys => if le x y then x :: y :: ys else y :: insertLe le x ys

/-- Sort by the boolean relation `le` (model of Python's `sorted` and of
pandas `sort_values`). -/
def sortLe (le : β → β → Bool) : List β → List β
  | [] => []
  | x :: xs => insertLe le x (sortLe le xs)

/-- Collapse adjacent duplicates; after sorting this yields the distinct
values, i.e. the composite `sorted(SELECT DISTINCT ...)` of the source. -/
def dedupAdj [DecidableEq β] : List β → List β
  | [] => []
  | [x] => [x]
  | x :: y :: rest =>
    if x = y then dedupAdj (y :: rest) else x :: dedupAdj (y :: rest)

/-- Fuel-driven worker for `chunks`; the fuel starts at the list length,
which suffices because every step removes at least one element when
`1 ≤ n`. -/
def chunksAux (n : Nat) : Nat → List β → List (List β)
  | 0, _ => []
  | _, [] => []
  | fuel + 1, x :: xs => (x :: xs).take n :: chunksAux n fuel ((x :: xs).drop n)

/-- Translation of `chunks(lst, n)`: successive `n`-sized slices of `lst`
(the Python generator `lst[i : i + n]` for `i in range(0, len(lst), n)`).
Meaningful for `1 ≤ n`; Python raises on `n = 0`. -/
def chunks (lst : List β) (n : Nat) : List (List β) := chunksAux n lst.length lst

/-- The list `[k, k+1, ..., k+n-1]`, used to build concrete ticker
universes in witnesses. -/
def natsFrom (k : Nat) : Nat → List Nat
  | 0 => []
  | n + 1 => k :: natsFrom (k + 1) n

/-- The table catalog `sharadar_tables`: identifier, watermark column,
display label, chunk weight, in the source's insertion order. -/
def sharadar_tables : List (String × String × String × Nat) :=
  [("TICKERS", "lastupdated", "Tickers and Metadata", 1),
   ("EVENTS", "date", "Core US Fundamental Events", 1),
   ("SF3A", "calendardate", "Core US Institutional Investors Summary by Ticker", 1),
   ("SF3B", "calendardate", "Core US Institutional Investors Summary by Investor", 1),
   ("ACTIONS", "date", "Corporate Actions", 1),
   ("SP500", "date", "S&P500 Current and Historical Constituents", 1),
   ("SFP", "date", "Sharadar Fund Prices", 5),
   ("SF1", "lastupdated", "Core US Fndamentals", 7),
   ("DAILY", "lastupdated", "Daily Metrics", 9),
   ("SEP", "date", "Sharadar Equity Prices", 11),
   ("SF2", "filingdate", "Core US Insiders", 17),
   ("SF3", "calendardate", "Core US Institutional Investors Summary by Ticker", 21)]

/-- Catalog lookup (`sharadar_tables[table]`); `none` models the Python
`KeyError` on an unregistered identifier. -/
def tableInfo (t : String) : Option (String × String × Nat) :=
  (sharadar_tables.find? (fun e => e.1 = t)).map (·.2)

/-- The catalog's identifiers in insertion order (`sharadar_tables.keys()`). -/
def allTableNames : List String := sharadar_tables.map (·.1)

/-- A stored or fetched row: the value of the table's watermark column
(a date string) and the ticker; other vendor columns never influence the
control flow and are omitted. -/
structure Row (α : Type) where
  dateVal : String
  ticker : α
deriving DecidableEq, Repr

/-- The SQLite database: table name (in creation case) to rows, in
insertion order. -/
abbrev DB (α : Type) := List (String × List (Row α))

/-- Case-exact table lookup, used where the source compares stored names
as strings (the `sqlite_master` existence check) and, because the program
always writes and reads a table under one spelling, also as the model of
`SELECT ... FROM` on these tables. -/
def lookupTable (db : DB α) (nm : String) : Option (List (Row α)) :=
  match db with
  | [] => none
  | (k, v) :: rest => if k = nm then some v else lookupTable rest nm

/-- ASCII upper-casing of a character, by code point. -/
def upChar (c : Char) : Char :=
  if 97 ≤ c.toNat ∧ c.toNat ≤ 122 then Char.ofNat (c.toNat - 32) else c

/-- ASCII upper-casing of a string. -/
def upStr (s : String) : String := String.mk (s.data.map upChar)

/-- Case-insensitive table lookup: SQLite resolves identifiers in `FROM`
clauses case-insensitively, which is how `SELECT DISTINCT ticker FROM
tickers` finds the table stored as `TICKERS`. -/
def lookupTableCI (db : DB α) (nm : String) : Option (List (Row α)) :=
  match db with
  | [] => none
  | (k, v) :: rest => if upStr k = upStr nm then some v else lookupTableCI rest nm

/-- Model of `DataFrame.to_sql(nm, conn, if_exists="append")`: append to
the existing table, or create it. -/
def appendRows (db : DB α) (nm : String) (rows : List (Row α)) : DB α :=
  match db with
  | [] => [(nm, rows)]
  | (k, v) :: rest =>
    if k = nm then (k, v ++ rows) :: rest else (k, v) :: appendRows rest nm rows

/-- Model of `DROP TABLE nm`. -/
def dropTable (db : DB α) (nm : String) : DB α :=
  match db with
  | [] => []
  | (k, v) :: rest => if k = nm then rest else (k, v) :: dropTable rest nm

/-- Rows of a table, empty if absent (used to state preservation facts). -/
def rowsOf (db : DB α) (nm : String) : List (Row α) := (lookupTable db nm).getD []

/-- Value returned by `download_table`: the integer sentinel `1` on a
vendor exception, or the (possibly empty) fetched dataframe. -/
inductive DlResult (α : Type) where
  | errSentinel : DlResult α
  | df (rows : List (Row α)) : DlResult α
deriving DecidableEq, Repr

/-- One `quandl.get_table` request: table name, watermark column, its
`gte`/`lte` bounds, and the optional ticker allow-list. -/
structure FetchCall (α : Type) where
  table : String
  col : String
  gte : String
  lte : String
  tickers : Option (List α)
deriving DecidableEq, Repr

/-- The vendor client as an oracle: request to exception-or-rows. -/
abbrev Vendor (α : Type) := FetchCall α → Except Unit (List (Row α))

/-- Translation of `set_tables`: the requested identifiers, or the whole
catalog when the argument is falsy; raises (models `ValueError`) at the
first identifier missing from the catalog. -/
def set_tables (argTables : List String) : Except String (List String) :=
  if argTables.isEmpty then .ok allTableNames
  else
    match argTables.find? (fun t => (tableInfo t).isNone) with
    | some t => .error t
    | none => .ok argTables

/-- Translation of `get_all_tickers`: the sorted distinct tickers of the
`tickers` table, written as sort-then-collapse-adjacent-duplicates, which
is extensionally `sorted(SELECT DISTINCT ticker ...)`; `pandas.read_sql`
raises (models `DatabaseError`) when the table is absent. -/
def get_all_tickers (tle : α → α → Bool) [DecidableEq α] (db : DB α) :
    Except Unit (List α) :=
  match lookupTableCI db "tickers" with
  | none => .error ()
  | some rows => .ok (dedupAdj (sortLe tle (rows.map (·.ticker))))

/-- The end date `init_dates` computes: `args.todate` when set (truthy),
else yesterday (today minus one day, formatted). -/
def endDateOf (todate : Option String) (today : Ymd) : String :=
  match todate with
  | some s => s
  | none => (subDays today 1).fmt

/-- Translation of `init_dates`: the watermark column from the catalog and
the end date; `none` models the `KeyError` on an unknown table. -/
def init_dates (t : String) (todate : Option String) (today : Ymd) :
    Option (String × String) :=
  (tableInfo t).map (fun info => (info.1, endDateOf todate today))

/-- SQL `MAX` over the watermark column: `none` (NULL) on an empty table. -/
def maxDateVal : List (Row α) → Option String
  | [] => none
  | r :: rs => some (rs.foldl (fun acc x => strMax acc x.dateVal) r.dateVal)

/-- The date-range resolution of `download_table` (lines 211-236 of
`update.py`): watermark column, start date and end date.  Start is the
stored watermark plus one day when the table exists, else the end date
minus seven days; no ordering check of any kind is performed.  `error`
models the uncaught exceptions of that stretch of code (unknown table,
`MAX` returning NULL on an empty table, unparseable date strings). -/
def resolveWindow (t : String) (todate : Option String) (today : Ymd)
    (stored : Option (List (Row α))) : Except Unit (String × String × String) :=
  match init_dates t todate today with
  | none => .error ()
  | some (dcol, dend) =>
    match stored with
    | some rows =>
      match maxDateVal rows with
      | none => .error ()
      | some w =>
        match parseDate w with
        | none => .error ()
        | some wd => .ok (dcol, (addDays wd 1).fmt, dend)
    | none =>
      match parseDate dend with
      | none => .error ()
      | some ed => .ok (dcol, (subDays ed 7).fmt, dend)

/-- The request `download_table` builds: the ticker allow-list is included
only when `tc` is truthy and non-empty (`if tc and len(tc) != 0`). -/
def mkCall (t dcol ds de : String) (tc : Option (List α)) : FetchCall α :=
  { table := t, col := dcol, gte := ds, lte := de,
    tickers := match tc with
               | some l => if l.isEmpty then none else some l
               | none => none }

/-- Row order of the `sort_values` call in `download_table`: watermark
descending with ticker ascending as tie-break, except `SF3B` which sorts
by watermark descending only. -/
def rowLE (tle : α → α → Bool) (t : String) (a b : Row α) : Bool :=
  if t = "SF3B" then strLe b.dateVal a.dateVal
  else if a.dateVal = b.dateVal then tle a.ticker b.ticker
  else strLe b.dateVal a.dateVal

/-- The sorted dataframe (`df_new.sort_values(...)`). -/
def sortRows (tle : α → α → Bool) (t : String) (rows : List (Row α)) :
    List (Row α) :=
  sortLe (rowLE tle t) rows

/-- Translation of `download_table`: resolve the window, fetch, and on a
non-empty result sort the rows and append them to the `_cumm` staging
table.  Returns the sentinel on a vendor exception and the (sorted)
dataframe otherwise, together with the updated database and the list of
vendor requests issued. -/
def downloadTable (tle : α → α → Bool) (vendor : Vendor α) (today : Ymd)
    (t : String) (todate : Option String) (tc : Option (List α)) (db : DB α) :
    Except Unit (DlResult α × DB α) × List (FetchCall α) :=
  match resolveWindow t todate today (lookupTable db t) with
  | .error _ => (.error (), [])
  | .ok (dcol, ds, de) =>
    let call := mkCall t dcol ds de tc
    match vendor call with
    | .error _ => (.ok (.errSentinel, db), [call])
    | .ok rows =>
      if rows.isEmpty then (.ok (.df rows, db), [call])
      else
        let sorted := sortRows tle t rows
        (.ok (.df sorted, appendRows db (t ++ "_cumm") sorted), [call])

/-- Translation of `accumulate_results`: append the downloaded dataframe
to the `_cumm` staging table. -/
def accumulate_results (dfd : List (Row α)) (t : String) (db : DB α) : DB α :=
  appendRows db (t ++ "_cumm") dfd

/-- Translation of `consolidate_results`: read the staging table (the bare
`except` turns its absence into a no-op), append its rows to the stored
table when non-empty, then drop the staging table. -/
def consolidate_results (t : String) (db : DB α) : DB α :=
  match lookupTable db (t ++ "_cumm") with
  | none => db
  | some rows =>
    let db1 := if rows.isEmpty then db else appendRows db t rows
    dropTable db1 (t ++ "_cumm")

/-- The per-ticker-batch loop of `main` for a large table: a vendor
sentinel skips the batch (`continue`), a non-empty dataframe is passed to
`accumulate_results` — on top of the append `download_table` itself
already performed. -/
def processChunks (tle : α → α → Bool) (vendor : Vendor α) (today : Ymd)
    (t : String) (todate : Option String) :
    List (List α) → DB α → Except Unit (DB α) × List (FetchCall α)
  | [], db => (.ok db, [])
  | tc :: rest, db =>
    match downloadTable tle vendor today t todate (some tc) db with
    | (.error _, lg) => (.error (), lg)
    | (.ok (.errSentinel, db2), lg) =>
      let next := processChunks tle vendor today t todate rest db2
      (next.1, lg ++ next.2)
    | (.ok (.df rows, db2), lg) =>
      let db3 := if rows.isEmpty then db2 else accumulate_results rows t db2
      let next := processChunks tle vendor today t todate rest db3
      (next.1, lg ++ next.2)

/-- The body of `main`'s per-table loop: tables of chunk weight above one
are partitioned into ticker batches of 1000 after querying the ticker
universe, small tables are fetched in one call; `consolidate_results`
closes the table except on the small-table sentinel path, whose
`continue` jumps past it. -/
def syncTable (tle : α → α → Bool) [DecidableEq α] (vendor : Vendor α)
    (today : Ymd) (todate : Option String) (t : String) (db : DB α) :
    Except Unit (DB α) × List (FetchCall α) :=
  match tableInfo t with
  | none => (.error (), [])
  | some (_, _, w) =>
    if 1 < w then
      match get_all_tickers tle db with
      | .error _ => (.error (), [])
      | .ok allTk =>
        match processChunks tle vendor today t todate (chunks allTk 1000) db with
        | (.error _, lg) => (.error (), lg)
        | (.ok db2, lg) => (.ok (consolidate_results t db2), lg)
    else
      match downloadTable tle vendor today t todate none db with
      | (.error _, lg) => (.error (), lg)
      | (.ok (.errSentinel, db2), lg) => (.ok db2, lg)
      | (.ok (.df rows, db2), lg) =>
        let db3 := if rows.isEmpty then db2 else accumulate_results rows t db2
        (.ok (consolidate_results t db3), lg)

/-- The table loop of `main`: sequential, an uncaught exception aborts the
run. -/
def runTables (tle : α → α → Bool) [DecidableEq α] (vendor : Vendor α)
    (today : Ymd) (todate : Option String) :
    List String → DB α → Except Unit (DB α) × List (FetchCall α)
  | [], db => (.ok db, [])
  | t :: ts, db =>
    match syncTable tle vendor today todate t db with
    | (.error _, lg) => (.error (), lg)
    | (.ok db2, lg) =>
      let next := runTables tle vendor today todate ts db2
      (next.1, lg ++ next.2)

/-- Translation of `main` after argument parsing: validate the table list
(`set_tables`), require the database file to exist (`db_exists` raises
otherwise), then sync each table.  The database file is `none` when no
file exists at the target path; `parse_args` offers only `--tables`,
`--todate`, `--save_name`, `--directory`, `--print_on`, `--print_rows`
and `--key` — there is no from-date option, so the run's inputs relevant
to the core are exactly the requested tables and the optional end
date. -/
def runSync (tle : α → α → Bool) [DecidableEq α] (vendor : Vendor α)
    (today : Ymd) (argTables : List String) (todate : Option String)
    (dbFile : Option (DB α)) : Except Unit (DB α) × List (FetchCall α) :=
  match set_tables argTables with
  | .error _ => (.error (), [])
  | .ok tables =>
    match dbFile with
    | none => (.error (), [])
    | some db => runTables tle vendor today todate tables db

instance {ε β : Type} [DecidableEq ε] [DecidableEq β] : DecidableEq (Except ε β) :=
  fun a b =>
    match a, b with
    | .error x, .error y =>
      if h : x = y then .isTrue (by rw [h])
      else .isFalse (fun hh => h (by injection hh))
    | .ok x, .ok y =>
      if h : x = y then .isTrue (by rw [h])
      else .isFalse (fun hh => h (by injection hh))
    | .error _, .ok _ => .isFalse (fun hh => by injection hh)
    | .ok _, .error _ => .isFalse (fun hh => by injection hh)

/-- No table name equals its own staging name. -/
theorem ne_cumm (t : String) : t ≠ t ++ "_cumm" := by
  intro h
  have hlen := congrArg String.length h
  rw [String.length_append] at hlen
  have : "_cumm".length = 5 := by decide
  omega

theorem lookupTable_append_list {α : Type} (db1 db2 : DB α) (nm : String) :
    lookupTable (db1 ++ db2) nm =
      match lookupTable db1 nm with
      | some v => some v
      | none => lookupTable db2 nm := by
  induction db1 with
  | nil => simp [lookupTable]
  | cons e rest ih =>
    by_cases h : e.1 = nm <;> simp [lookupTable, h, ih]

theorem appendRows_absent {α : Type} (db : DB α) (nm : String)
    (rows : List (Row α)) (h : lookupTable db nm = none) :
    appendRows db nm rows = db ++ [(nm, rows)] := by
  induction db with
  | nil => simp [appendRows]
  | cons e rest ih =>
    by_cases hk : e.1 = nm
    · simp [lookupTable, hk] at h
    · simp [lookupTable, hk] at h
      simp [appendRows, hk, ih h]

theorem appendRows_appendRows {α : Type} (db : DB α) (nm : String)
    (a b : List (Row α)) :
    appendRows (appendRows db nm a) nm b = appendRows db nm (a ++ b) := by
  induction db with
  | nil => simp [appendRows]
  | cons e rest ih =>
    by_cases hk : e.1 = nm <;> simp [appendRows, hk, ih]

theorem lookupTable_appendRows_ne {α : Type} (db : DB α) (k nm : String)
    (rows : List (Row α)) (h : nm ≠ k) :
    lookupTable (appendRows db k rows) nm = lookupTable db nm := by
  induction db with
  | nil => simp [appendRows, lookupTable, Ne.symm h]
  | cons e rest ih =>
    by_cases hk : e.1 = k
    · subst hk
      simp [appendRows, lookupTable, Ne.symm h]
    · by_cases hn : e.1 = nm <;> simp [appendRows, lookupTable, hk, hn, ih, h]

theorem lookupTable_appendRows_self {α : Type} (db : DB α) (nm : String)
    (rows : List (Row α)) :
    lookupTable (appendRows db nm rows) nm = some (rowsOf db nm ++ rows) := by
  induction db with
  | nil => simp [appendRows, lookupTable, rowsOf]
  | cons e rest ih =>
    by_cases hk : e.1 = nm
    · simp [appendRows, lookupTable, rowsOf, hk]
    · simp [appendRows, lookupTable, rowsOf, hk] at ih ⊢
      exact ih

theorem lookupTable_dropTable_ne {α : Type} (db : DB α) (k nm : String)
    (h : nm ≠ k) : lookupTable (dropTable db k) nm = lookupTable db nm := by
  induction db with
  | nil => simp [dropTable]
  | cons e rest ih =>
    by_cases hk : e.1 = k
    · subst hk
      simp [dropTable, lookupTable, Ne.symm h]
    · by_cases hn : e.1 = nm <;> simp [dropTable, lookupTable, hk, hn, ih, h]

theorem dropTable_middle {α : Type} (db rest : DB α) (nm : String)
    (v : List (Row α)) (h : lookupTable db nm = none) :
    dropTable (db ++ (nm, v) :: rest) nm = db ++ rest := by
  induction db with
  | nil => simp [dropTable]
  | cons e tail ih =>
    by_cases hk : e.1 = nm
    · simp [lookupTable, hk] at h
    · simp [lookupTable, hk] at h
      simp [dropTable, hk, ih h]

theorem rowsOf_appendRows {α : Type} (db : DB α) (k nm : String)
    (rows : List (Row α)) :
    ∃ tail, rowsOf (appendRows db k rows) nm = rowsOf db nm ++ tail := by
  by_cases h : nm = k
  · subst h
    exact ⟨rows, by rw [rowsOf, lookupTable_appendRows_self]; rfl⟩
  · exact ⟨[], by rw [rowsOf, lookupTable_appendRows_ne db k nm rows h]; simp [rowsOf]⟩

theorem length_insertLe {β : Type} (le : β → β → Bool) (x : β) (l : List β) :
    (insertLe le x l).length = l.length + 1 := by
  induction l with
  | nil => simp [insertLe]
  | cons y ys ih =>
    by_cases h : le x y <;> simp [insertLe, h, ih]

theorem length_sortLe {β : Type} (le : β → β → Bool) (l : List β) :
    (sortLe le l).length = l.length := by
  induction l with
  | nil => simp [sortLe]
  | cons x xs ih => simp [sortLe, length_insertLe, ih]

theorem length_sortRows {α : Type} (tle : α → α → Bool) (t : String)
    (rows : List (Row α)) : (sortRows tle t rows).length = rows.length :=
  length_sortLe _ _

theorem sortRows_ne_nil {α : Type} (tle : α → α → Bool) (t : String)
    (rows : List (Row α)) (h : rows ≠ []) : sortRows tle t rows ≠ [] := by
  intro hh
  apply h
  have := length_sortRows tle t rows
  rw [hh] at this
  exact List.length_eq_zero.mp this.symm

theorem chunksAux_nil {β : Type} (n f : Nat) : chunksAux (β := β) n f [] = [] := by
  cases f <;> simp [chunksAux]

theorem chunksAux_fuel {β : Type} (n : Nat) (hn : 1 ≤ n) :
    ∀ (f1 f2 : Nat) (l : List β), l.length ≤ f1 → l.length ≤ f2 →
      chunksAux n f1 l = chunksAux n f2 l := by
  intro f1
  induction f1 with
  | zero =>
    intro f2 l h1 _
    have hl : l = [] := List.length_eq_zero.mp (Nat.le_zero.mp h1)
    subst hl
    simp [chunksAux_nil]
  | succ f ih =>
    intro f2 l h1 h2
    cases l with
    | nil => simp [chunksAux_nil]
    | cons x xs =>
      cases f2 with
      | zero => simp at h2
      | succ f2' =>
        simp only [chunksAux]
        congr 1
        have hx : (x :: xs).length = xs.length + 1 := rfl
        rw [hx] at h1 h2
        apply ih
        · rw [List.length_drop, hx]
          omega
        · rw [List.length_drop, hx]
          omega

theorem chunksAux_flatten {β : Type} (n : Nat) (hn : 1 ≤ n) :
    ∀ (f : Nat) (l : List β), l.length ≤ f → (chunksAux n f l).flatten = l := by
  intro f
  induction f with
  | zero =>
    intro l h1
    have hl : l = [] := List.length_eq_zero.mp (Nat.le_zero.mp h1)
    subst hl
    simp [chunksAux_nil]
  | succ f ih =>
    intro l h1
    cases l with
    | nil => simp [chunksAux_nil]
    | cons x xs =>
      simp only [chunksAux, List.flatten_cons]
      rw [ih]
      · exact List.take_append_drop n (x :: xs)
      · rw [List.length_drop]
        have hx : (x :: xs).length = xs.length + 1 := rfl
        rw [hx] at h1 ⊢
        omega

theorem chunksAux_size_le {β : Type} (n : Nat) :
    ∀ (f : Nat) (l : List β) (b : List β), b ∈ chunksAux n f l → b.length ≤ n := by
  intro f
  induction f with
  | zero =>
    intro l b hb
    simp [chunksAux] at hb
  | succ f ih =>
    intro l b hb
    cases l with
    | nil => simp [chunksAux_nil] at hb
    | cons x xs =>
      simp only [chunksAux, List.mem_cons] at hb
      rcases hb with hb | hb
      · subst hb
        rw [List.length_take]
        exact Nat.min_le_left _ _
      · exact ih _ _ hb

theorem chunks_cons {β : Type} (l1 rest : List β) (n : Nat) (hn : 1 ≤ n)
    (hl : l1.length = n) : chunks (l1 ++ rest) n = l1 :: chunks rest n := by
  cases l1 with
  | nil => rw [List.length_nil] at hl; omega
  | cons y l1' =>
    show chunksAux n (y :: l1' ++ rest).length (y :: l1' ++ rest) = _
    have hlen : (y :: l1' ++ rest).length = (l1'.length + rest.length) + 1 := by
      simp only [List.cons_append, List.length_cons, List.length_append]
    rw [hlen]
    simp only [chunksAux]
    simp only [List.append_eq]
    rw [← List.cons_append, List.take_left' hl, List.drop_left' hl]
    congr 1
    exact chunksAux_fuel n hn _ _ rest (by omega) le_rfl

theorem chunks_small {β : Type} (l : List β) (n : Nat) (hne : l ≠ [])
    (hl : l.length ≤ n) : chunks l n = [l] := by
  cases l with
  | nil => exact absurd rfl hne
  | cons x xs =>
    show chunksAux n (x :: xs).length (x :: xs) = _
    have hlen : (x :: xs).length = xs.length + 1 := rfl
    rw [hlen]
    simp only [chunksAux]
    rw [List.take_of_length_le hl, List.drop_eq_nil_of_le hl]
    rw [chunksAux_nil n _]

theorem natsFrom_length (k n : Nat) : (natsFrom k n).length = n := by
  induction n generalizing k with
  | zero => simp [natsFrom]
  | succ n ih => simp [natsFrom, ih]

theorem natsFrom_append (m : Nat) :
    ∀ (k j : Nat), natsFrom k (m + j) = natsFrom k m ++ natsFrom (k + m) j := by
  induction m with
  | zero => intro k j; simp [natsFrom]
  | succ m ih =>
    intro k j
    have h1 : m + 1 + j = (m + j) + 1 := by omega
    rw [h1]
    show k :: natsFrom (k + 1) (m + j) = _
    rw [ih (k + 1) j]
    have h2 : k + 1 + m = k + (m + 1) := by omega
    simp only [natsFrom, List.cons_append, h2]

theorem natsFrom_ne_nil (k n : Nat) (h : 1 ≤ n) : natsFrom k n ≠ [] := by
  cases n with
  | zero => omega
  | succ n => simp [natsFrom]

/-- Shared witness instantiation: Nat order as the ticker comparison. -/
def nle (a b : Nat) : Bool := Nat.ble a b

/-- Shared witness vendor that always answers with an empty result. -/
def vEmpty : Vendor Nat := fun _ => .ok []

theorem resolveWindow_absent {α : Type} (t dcol lbl : String) (w : Nat)
    (todate : Option String) (today : Ymd) (ed : Ymd)
    (hinfo : tableInfo t = some (dcol, lbl, w))
    (hparse : parseDate (endDateOf todate today) = some ed) :
    resolveWindow (α := α) t todate today none =
      .ok (dcol, (subDays ed 7).fmt, endDateOf todate today) := by
  simp [resolveWindow, init_dates, hinfo, hparse]

theorem resolveWindow_watermark {α : Type} (t dcol lbl : String) (w : Nat)
    (todate : Option String) (today : Ymd) (rows : List (Row α))
    (wm : String) (wd : Ymd)
    (hinfo : tableInfo t = some (dcol, lbl, w))
    (hmax : maxDateVal rows = some wm)
    (hparse : parseDate wm = some wd) :
    resolveWindow t todate today (some rows) =
      .ok (dcol, (addDays wd 1).fmt, endDateOf todate today) := by
  simp [resolveWindow, init_dates, hinfo, hmax, hparse]

/-- Claim C2, amended.  In the code a table with no stored data starts at
`end_date - 7 days` whatever its chunk weight; the epoch floor 2000-01-01
appears nowhere in `update.py`.  First conjunct: for every catalog table
with no stored rows and a parseable user `todate`, the resolved window is
`[todate - 7 days, todate]`.  Second conjunct: the `EVENTS` scenario with
`to_date="2020-02-01"` resolves to `["2020-01-25", "2020-02-01"]`. -/
theorem C2_first_sync_start_is_end_minus_7 :
    (∀ (α : Type) (t dcol lbl : String) (w : Nat) (todate : String)
        (today : Ymd) (ed : Ymd),
        tableInfo t = some (dcol, lbl, w) →
        parseDate todate = some ed →
        resolveWindow (α := α) t (some todate) today none =
          .ok (dcol, (subDays ed 7).fmt, todate)) ∧
      resolveWindow (α := Nat) "EVENTS" (some "2020-02-01") ⟨2020, 2, 15⟩ none =
        .ok ("date", "2020-01-25", "2020-02-01") := by
  constructor
  · intro α t dcol lbl w todate today ed hinfo hparse
    exact resolveWindow_absent t dcol lbl w (some todate) today ed hinfo hparse
  · decide

/-- Witness for C2: the general conjunct applied to table `SF1` (a large
table, chunk weight 7) with `todate = "2020-02-01"`, showing the same
`end - 7 days` start that small tables get. -/
theorem C2_first_sync_start_is_end_minus_7_witness :
    tableInfo "SF1" = some ("lastupdated", "Core US Fndamentals", 7) ∧
      parseDate "2020-02-01" = some ⟨2020, 2, 1⟩ ∧
      resolveWindow (α := Nat) "SF1" (some "2020-02-01") ⟨2020, 2, 15⟩ none =
        .ok ("lastupdated", (subDays ⟨2020, 2, 1⟩ 7).fmt, "2020-02-01") :=
  ⟨by decide, by decide,
    C2_first_sync_start_is_end_minus_7.1 Nat "SF1" "lastupdated"
      "Core US Fndamentals" 7 "2020-02-01" ⟨2020, 2, 15⟩ ⟨2020, 2, 1⟩
      (by decide) (by decide)⟩

/-- Counterexample to C2 as stated: `EVENTS` (chunk weight 1, a small
table) with no prior data and `to_date="2020-02-01"` does not resolve to
the claimed window starting at the epoch floor `"2000-01-01"`; the code
resolves it to start `"2020-01-25"`. -/
theorem C2_epoch_floor_refuted :
    resolveWindow (α := Nat) "EVENTS" (some "2020-02-01") ⟨2020, 2, 15⟩ none ≠
      .ok ("date", "2000-01-01", "2020-02-01") := by decide

/-- Claim C6, amended.  With stored watermark `"2020-01-31"`, no user
dates and today `2020-02-05`, the code resolves the window to
`["2020-02-01", "2020-02-04"]`: start is watermark plus one day as the
claim says, but the end date is today minus one day, not today. -/
theorem C6_watermark_window :
    resolveWindow "EVENTS" none ⟨2020, 2, 5⟩
        (some [Row.mk "2020-01-31" (0 : Nat)]) =
      .ok ("date", "2020-02-01", "2020-02-04") := by decide

/-- Counterexample to C6 as stated: the same scenario does not resolve to
the claimed window ending at `"2020-02-05"` (today); `init_dates` uses
yesterday when `--todate` is unset. -/
theorem C6_end_date_refuted :
    resolveWindow "EVENTS" none ⟨2020, 2, 5⟩
        (some [Row.mk "2020-01-31" (0 : Nat)]) ≠
      .ok ("date", "2020-02-01", "2020-02-05") := by decide

/-- Claim C3, amended.  `parse_args` has no from-date option and the code
performs no window-order validation anywhere: when the resolved start
(stored watermark plus one day) falls after the user `todate`, resolution
succeeds and `download_table` issues the inverted range to the vendor
unchanged.  First conjunct: for every table with stored rows, a parseable
watermark and any `todate` string whatsoever, `download_table` issues
exactly the request `[watermark + 1 day, todate]` — no ordering check.
Second conjunct: a concrete inverted window (start `"2020-02-11"`, end
`"2020-02-01"`) resolves successfully. -/
theorem C3_inverted_window_passed_through :
    (∀ (α : Type) (tle : α → α → Bool) (vendor : Vendor α) (today : Ymd)
        (t dcol lbl : String) (w : Nat) (db : DB α) (rows : List (Row α))
        (wm : String) (wd : Ymd) (todate : String),
        tableInfo t = some (dcol, lbl, w) →
        lookupTable db t = some rows →
        maxDateVal rows = some wm →
        parseDate wm = some wd →
        (downloadTable tle vendor today t (some todate) none db).2 =
          [mkCall t dcol (addDays wd 1).fmt todate none]) ∧
      (resolveWindow "EVENTS" (some "2020-02-01") ⟨2020, 2, 15⟩
          (some [Row.mk "2020-02-10" (0 : Nat)]) =
          .ok ("date", "2020-02-11", "2020-02-01") ∧
        strLe "2020-02-11" "2020-02-01" = false) := by
  constructor
  · intro α tle vendor today t dcol lbl w db rows wm wd todate hinfo hlook hmax hparse
    have hres := resolveWindow_watermark t dcol lbl w (some todate) today rows wm wd
      hinfo hmax hparse
    simp only [downloadTable, hlook, hres, endDateOf]
    cases vendor (mkCall t dcol (addDays wd 1).fmt todate none) with
    | error e => rfl
    | ok rows2 =>
      by_cases hr : rows2.isEmpty <;> simp [hr]
  · exact ⟨by decide, by decide⟩

/-- Witness for C3: the general conjunct at a concrete database whose
`EVENTS` watermark `"2020-02-10"` lies after the requested
`todate = "2020-02-01"`; the inverted request is issued to the vendor. -/
theorem C3_inverted_window_passed_through_witness :
    (downloadTable nle vEmpty ⟨2020, 2, 15⟩ "EVENTS" (some "2020-02-01") none
        [("EVENTS", [Row.mk "2020-02-10" (0 : Nat)])]).2 =
      [mkCall "EVENTS" "date" (addDays ⟨2020, 2, 10⟩ 1).fmt "2020-02-01" none] :=
  C3_inverted_window_passed_through.1 Nat nle vEmpty ⟨2020, 2, 15⟩ "EVENTS"
    "date" "Core US Fundamental Events" 1
    [("EVENTS", [Row.mk "2020-02-10" (0 : Nat)])]
    [Row.mk "2020-02-10" (0 : Nat)] "2020-02-10" ⟨2020, 2, 10⟩ "2020-02-01"
    (by decide) (by decide) (by decide) (by decide)

/-- Counterexample to C3 as stated: the claim says an inverted window is
rejected with `InvalidRangeError`; in the code the resolution of an
inverted window (watermark `"2020-02-10"`, `todate = "2020-02-01"`)
succeeds — start `"2020-02-11"` exceeds end `"2020-02-01"` and no error
of any kind is raised. -/
theorem C3_no_invalid_range_error :
    resolveWindow "EVENTS" (some "2020-02-01") ⟨2020, 2, 15⟩
        (some [Row.mk "2020-02-10" (0 : Nat)]) =
      .ok ("date", "2020-02-11", "2020-02-01") ∧
      strLe "2020-02-11" "2020-02-01" = false := ⟨by decide, by decide⟩

/-- Shared witness vendor that always raises. -/
def vErr : Vendor Nat := fun _ => .error ()

/-- Shared witness database holding one `EVENTS` row. -/
def dbEvents : DB Nat := [("EVENTS", [Row.mk "2020-01-31" 0])]

theorem allTableNames_isSome : ∀ x ∈ allTableNames, (tableInfo x).isSome := by
  decide

theorem set_tables_sound (ts l : List String) (h : set_tables ts = .ok l) :
    ∀ x ∈ l, (tableInfo x).isSome := by
  unfold set_tables at h
  by_cases he : ts.isEmpty
  · rw [if_pos he] at h
    injection h with h
    subst h
    exact allTableNames_isSome
  · rw [if_neg he] at h
    cases hfind : ts.find? (fun t => (tableInfo t).isNone) with
    | some t => rw [hfind] at h; exact absurd h (by simp)
    | none =>
      rw [hfind] at h
      injection h with h
      subst h
      intro x hx
      have hh := List.find?_eq_none.mp hfind x hx
      cases hti : tableInfo x <;> simp [hti] at hh ⊢

/-- Claim C4, amended.  `set_tables` raises `ValueError` at the first
requested identifier missing from the catalog, and `main` calls it before
any syncing, so the whole run aborts with no table synced and no vendor
request issued — it does not continue with the remaining identifiers. -/
theorem C4_unknown_table_aborts_run {α : Type} [DecidableEq α]
    (tle : α → α → Bool) (vendor : Vendor α) (today : Ymd)
    (ts : List String) (todate : Option String) (dbFile : Option (DB α))
    (t0 : String) (hmem : t0 ∈ ts) (hunk : tableInfo t0 = none) :
    runSync tle vendor today ts todate dbFile = (.error (), []) := by
  have hne : ts.isEmpty = false := by
    cases ts with
    | nil => simp at hmem
    | cons a as => rfl
  cases hfind : ts.find? (fun t => (tableInfo t).isNone) with
  | none =>
    exfalso
    have hh := List.find?_eq_none.mp hfind t0 hmem
    simp [hunk] at hh
  | some t =>
    have hst : set_tables ts = .error t := by
      unfold set_tables
      rw [if_neg (by simp [hne]), hfind]
    simp [runSync, hst]

/-- Witness for C4: requesting `["EVENTS", "BOGUS"]` aborts the whole run
even though `EVENTS` is a valid catalog table. -/
theorem C4_unknown_table_aborts_run_witness :
    "BOGUS" ∈ ["EVENTS", "BOGUS"] ∧ tableInfo "BOGUS" = none ∧
      runSync nle vEmpty ⟨2020, 2, 5⟩ ["EVENTS", "BOGUS"] none (some dbEvents) =
        (.error (), []) :=
  ⟨by decide, by decide,
    C4_unknown_table_aborts_run nle vEmpty ⟨2020, 2, 5⟩ ["EVENTS", "BOGUS"]
      none (some dbEvents) "BOGUS" (by decide) (by decide)⟩

/-- Counterexample to C4 as stated: with requested list
`["EVENTS", "BOGUS"]` and a database containing data for the valid
`EVENTS`, the run returns an error having issued zero vendor requests —
the valid identifier is not synced, contradicting "the run continues to
sync the remaining requested identifiers". -/
theorem C4_run_not_continued :
    runSync nle vErr ⟨2020, 2, 5⟩ ["EVENTS", "BOGUS"] none (some dbEvents) =
      (.error (), []) := by decide

/-- Claim C9, confirmed: when the vendor raises, `download_table` returns
the sentinel `1` with the database untouched; when the vendor returns an
empty result, it returns the empty dataframe, again with nothing written
to the staging table.  The caller separates the two cases only by the
sentinel test `isinstance(df, (int, float)) and df == 1`. -/
theorem C9_sentinel_and_empty {α : Type} (tle : α → α → Bool)
    (vendor : Vendor α) (today : Ymd) (t : String) (todate : Option String)
    (tc : Option (List α)) (db : DB α) (dcol ds de : String)
    (hres : resolveWindow t todate today (lookupTable db t) = .ok (dcol, ds, de)) :
    (vendor (mkCall t dcol ds de tc) = .error () →
      downloadTable tle vendor today t todate tc db =
        (.ok (.errSentinel, db), [mkCall t dcol ds de tc])) ∧
    (vendor (mkCall t dcol ds de tc) = .ok [] →
      downloadTable tle vendor today t todate tc db =
        (.ok (.df [], db), [mkCall t dcol ds de tc])) := by
  constructor <;> intro hv <;> simp [downloadTable, hres, hv]

/-- Witness for C9: on the `EVENTS` database, a raising vendor yields the
sentinel and an empty-result vendor yields the empty dataframe, both
leaving the database unchanged. -/
theorem C9_sentinel_and_empty_witness :
    downloadTable nle vErr ⟨2020, 2, 5⟩ "EVENTS" none none dbEvents =
      (.ok (.errSentinel, dbEvents),
        [mkCall "EVENTS" "date" "2020-02-01" "2020-02-04" none]) ∧
    downloadTable nle vEmpty ⟨2020, 2, 5⟩ "EVENTS" none none dbEvents =
      (.ok (.df [], dbEvents),
        [mkCall "EVENTS" "date" "2020-02-01" "2020-02-04" none]) :=
  ⟨(C9_sentinel_and_empty nle vErr ⟨2020, 2, 5⟩ "EVENTS" none none dbEvents
      "date" "2020-02-01" "2020-02-04" (by decide)).1 rfl,
   (C9_sentinel_and_empty nle vEmpty ⟨2020, 2, 5⟩ "EVENTS" none none dbEvents
      "date" "2020-02-01" "2020-02-04" (by decide)).2 rfl⟩

/-- Claim C10, confirmed: for a table of chunk weight above one the
orchestrator's first step is the ticker-universe query; if the `tickers`
table is absent the sync of that table errors with zero vendor requests
issued, whatever the vendor would have answered. -/
theorem C10_tickers_precondition {α : Type} [DecidableEq α]
    (tle : α → α → Bool) (vendor : Vendor α) (today : Ymd)
    (todate : Option String) (t dcol lbl : String) (w : Nat) (db : DB α)
    (hinfo : tableInfo t = some (dcol, lbl, w)) (hw : 1 < w)
    (habs : lookupTableCI db "tickers" = none) :
    syncTable tle vendor today todate t db = (.error (), []) := by
  simp [syncTable, hinfo, hw, get_all_tickers, habs]

/-- Witness for C10: syncing the large table `SF1` against an empty
database errors out before any fetch. -/
theorem C10_tickers_precondition_witness :
    tableInfo "SF1" = some ("lastupdated", "Core US Fndamentals", 7) ∧
      lookupTableCI ([] : DB Nat) "tickers" = none ∧
      syncTable nle vEmpty ⟨2020, 2, 5⟩ none "SF1" ([] : DB Nat) =
        (.error (), []) :=
  ⟨by decide, rfl,
    C10_tickers_precondition nle vEmpty ⟨2020, 2, 5⟩ none "SF1" "lastupdated"
      "Core US Fndamentals" 7 [] (by decide) (by decide) rfl⟩

theorem tableInfo_mem (t : String) (info : String × String × Nat)
    (h : tableInfo t = some info) : t ∈ allTableNames := by
  unfold tableInfo at h
  cases hf : sharadar_tables.find? (fun e => e.1 = t) with
  | none => rw [hf] at h; simp at h
  | some e =>
    have hmem := List.mem_of_find?_eq_some hf
    have hpred := List.find?_some hf
    simp only [decide_eq_true_eq] at hpred
    rw [← hpred]
    exact List.mem_map_of_mem _ hmem

theorem syncTable_unknown {α : Type} [DecidableEq α] (tle : α → α → Bool)
    (vendor : Vendor α) (today : Ymd) (todate : Option String) (t : String)
    (db : DB α) (h : tableInfo t = none) :
    syncTable tle vendor today todate t db = (.error (), []) := by
  simp [syncTable, h]

theorem downloadTable_empty_vendor {α : Type} (tle : α → α → Bool)
    (vendor : Vendor α) (today : Ymd) (t : String) (todate : Option String)
    (tc : Option (List α)) (db : DB α) (hv : ∀ c, vendor c = .ok [])
    (r : DlResult α) (db2 : DB α) (lg : List (FetchCall α))
    (h : downloadTable tle vendor today t todate tc db = (.ok (r, db2), lg)) :
    db2 = db ∧ r = .df [] := by
  unfold downloadTable at h
  cases hres : resolveWindow t todate today (lookupTable db t) with
  | error e => rw [hres] at h; simp at h
  | ok trip =>
    obtain ⟨dcol, ds, de⟩ := trip
    rw [hres] at h
    simp only [hv] at h
    simp at h
    exact ⟨h.1.2.symm, h.1.1.symm⟩

theorem processChunks_empty_vendor {α : Type} (tle : α → α → Bool)
    (vendor : Vendor α) (today : Ymd) (t : String) (todate : Option String)
    (hv : ∀ c, vendor c = .ok []) :
    ∀ (l : List (List α)) (db db2 : DB α) (lg : List (FetchCall α)),
      processChunks tle vendor today t todate l db = (.ok db2, lg) →
      db2 = db := by
  intro l
  induction l with
  | nil =>
    intro db db2 lg h
    simp [processChunks] at h
    exact h.1.symm
  | cons tc rest ih =>
    intro db db2 lg h
    unfold processChunks at h
    cases hdl : downloadTable tle vendor today t todate (some tc) db with
    | mk res lgd =>
      rw [hdl] at h
      cases res with
      | error e => simp only [] at h; simp at h
      | ok p =>
        obtain ⟨r, dbd⟩ := p
        obtain ⟨hdb, hr⟩ :=
          downloadTable_empty_vendor tle vendor today t todate (some tc) db hv
            r dbd lgd hdl
        rw [hdb, hr] at h
        simp only [] at h
        simp only [List.isEmpty_nil, if_true] at h
        cases hn2 : processChunks tle vendor today t todate rest db with
        | mk nr2 nlg2 =>
          rw [hn2] at h
          cases nr2 with
          | error e => simp at h
          | ok dbn =>
            have hh : dbn = db := ih db dbn nlg2 hn2
            rw [hh] at h
            simp at h
            exact h.1.symm

theorem syncTable_empty_vendor {α : Type} [DecidableEq α]
    (tle : α → α → Bool) (vendor : Vendor α) (today : Ymd)
    (todate : Option String) (t : String) (db db2 : DB α)
    (lg : List (FetchCall α)) (hv : ∀ c, vendor c = .ok [])
    (hstg : lookupTable db (t ++ "_cumm") = none)
    (h : syncTable tle vendor today todate t db = (.ok db2, lg)) :
    db2 = db := by
  have hcons : consolidate_results t db = db := by
    unfold consolidate_results
    rw [hstg]
  unfold syncTable at h
  cases hinfo : tableInfo t with
  | none => rw [hinfo] at h; simp at h
  | some info =>
    obtain ⟨dcol, lbl, w⟩ := info
    rw [hinfo] at h
    simp only [] at h
    by_cases hw : 1 < w
    · rw [if_pos hw] at h
      cases hg : get_all_tickers tle db with
      | error e => rw [hg] at h; simp at h
      | ok tks =>
        rw [hg] at h
        simp only [] at h
        cases hp : processChunks tle vendor today t todate (chunks tks 1000) db with
        | mk pr plg =>
          rw [hp] at h
          cases pr with
          | error e => simp at h
          | ok dbp =>
            have hdbp : dbp = db :=
              processChunks_empty_vendor tle vendor today t todate hv _ db dbp plg hp
            rw [hdbp] at h
            simp only [] at h
            rw [hcons] at h
            simp at h
            exact h.1.symm
    · rw [if_neg hw] at h
      cases hdl : downloadTable tle vendor today t todate none db with
      | mk res lgd =>
        rw [hdl] at h
        cases res with
        | error e => simp at h
        | ok p =>
          obtain ⟨r, dbd⟩ := p
          obtain ⟨hdb, hr⟩ :=
            downloadTable_empty_vendor tle vendor today t todate none db hv
              r dbd lgd hdl
          rw [hdb, hr] at h
          simp only [] at h
          simp only [List.isEmpty_nil, if_true] at h
          rw [hcons] at h
          simp at h
          exact h.1.symm

theorem runTables_empty_vendor {α : Type} [DecidableEq α]
    (tle : α → α → Bool) (vendor : Vendor α) (today : Ymd)
    (todate : Option String) (hv : ∀ c, vendor c = .ok []) :
    ∀ (ts : List String) (db db2 : DB α) (lg : List (FetchCall α)),
      (∀ t ∈ allTableNames, lookupTable db (t ++ "_cumm") = none) →
      runTables tle vendor today todate ts db = (.ok db2, lg) →
      db2 = db := by
  intro ts
  induction ts with
  | nil =>
    intro db db2 lg _ h
    simp [runTables] at h
    exact h.1.symm
  | cons t rest ih =>
    intro db db2 lg hstg h
    unfold runTables at h
    cases hs : syncTable tle vendor today todate t db with
    | mk sr slg =>
      rw [hs] at h
      cases sr with
      | error e => simp at h
      | ok dbs =>
        have hdbs : dbs = db := by
          cases hinfo : tableInfo t with
          | none =>
            rw [syncTable_unknown tle vendor today todate t db hinfo] at hs
            simp at hs
          | some info =>
            exact syncTable_empty_vendor tle vendor today todate t db dbs slg
              hv (hstg t (tableInfo_mem t info hinfo)) hs
        rw [hdbs] at h
        simp only [] at h
        cases hn : runTables tle vendor today todate rest db with
        | mk nr nlg =>
          rw [hn] at h
          cases nr with
          | error e => simp at h
          | ok dbn =>
            have hh : dbn = db := ih db dbn nlg hstg hn
            rw [hh] at h
            simp at h
            exact h.1.symm

/-- Claim C7, confirmed: a run in which every vendor request answers with
zero rows (the second of two back-to-back syncs with no new vendor data)
leaves every stored table exactly as it was — provided no staging
(`_cumm`) leftovers exist, which is the state a completed first run
leaves behind, since `consolidate_results` drops the staging table it
read. -/
theorem C7_second_run_appends_nothing {α : Type} [DecidableEq α]
    (tle : α → α → Bool) (vendor : Vendor α) (today : Ymd)
    (ts : List String) (todate : Option String) (db db2 : DB α)
    (lg : List (FetchCall α)) (hv : ∀ c, vendor c = .ok [])
    (hstg : ∀ t ∈ allTableNames, lookupTable db (t ++ "_cumm") = none)
    (h : runSync tle vendor today ts todate (some db) = (.ok db2, lg)) :
    db2 = db := by
  unfold runSync at h
  cases hst : set_tables ts with
  | error e => rw [hst] at h; simp at h
  | ok tables =>
    rw [hst] at h
    exact runTables_empty_vendor tle vendor today todate hv tables db db2 lg hstg h

/-- The database state after a second run against `dbEvents` in which the
vendor returns no rows. -/
def dbSecondRun : DB Nat :=
  match (runSync nle vEmpty ⟨2020, 2, 5⟩ ["EVENTS"] none (some dbEvents)).1 with
  | .ok d => d
  | .error _ => []

/-- Witness for C7: the concrete second run over `["EVENTS"]` with an
empty-result vendor returns the stored data unchanged. -/
theorem C7_second_run_appends_nothing_witness :
    (∀ c : FetchCall Nat, vEmpty c = .ok []) ∧
      (∀ t ∈ allTableNames, lookupTable dbEvents (t ++ "_cumm") = none) ∧
      dbSecondRun = dbEvents :=
  ⟨fun _ => rfl, by decide,
    C7_second_run_appends_nothing nle vEmpty ⟨2020, 2, 5⟩ ["EVENTS"] none
      dbEvents dbSecondRun
      (runSync nle vEmpty ⟨2020, 2, 5⟩ ["EVENTS"] none (some dbEvents)).2
      (fun _ => rfl) (by decide) (by rfl)⟩

/-- Claim C8, confirmed: for every list and every batch size at least 1,
the batches of `chunks` concatenate back to the input (each element
covered exactly once, in order) and each batch has size at most `n`;
for 2500 elements and batch size 1000 the batch sizes are exactly
1000, 1000, 500. -/
theorem C8_chunks_partition :
    (∀ (β : Type) (lst : List β) (n : Nat), 1 ≤ n →
        (chunks lst n).flatten = lst ∧ ∀ b ∈ chunks lst n, b.length ≤ n) ∧
      (chunks (natsFrom 0 2500) 1000).map List.length = [1000, 1000, 500] := by
  constructor
  · intro β lst n hn
    exact ⟨chunksAux_flatten n hn lst.length lst le_rfl,
           fun b hb => chunksAux_size_le n lst.length lst b hb⟩
  · have h1 : natsFrom 0 2500 = natsFrom 0 1000 ++ natsFrom 1000 1500 := by
      have hh := natsFrom_append 1000 0 1500
      simpa using hh
    have h2 : natsFrom 1000 1500 = natsFrom 1000 1000 ++ natsFrom 2000 500 := by
      have hh := natsFrom_append 1000 1000 500
      simpa using hh
    rw [h1, chunks_cons _ _ 1000 (by omega) (natsFrom_length 0 1000)]
    rw [h2, chunks_cons _ _ 1000 (by omega) (natsFrom_length 1000 1000)]
    rw [chunks_small _ _ (natsFrom_ne_nil 2000 500 (by omega))
      (by rw [natsFrom_length 2000 500]; omega)]
    simp [natsFrom_length]

/-- Witness for C8: the partition facts at the concrete list
`[10, 20, 30]` with batch size 2. -/
theorem C8_chunks_partition_witness :
    (1 : Nat) ≤ 2 ∧ (chunks [10, 20, 30] 2).flatten = [10, 20, 30] ∧
      ∀ b ∈ chunks [10, 20, 30] 2, b.length ≤ 2 :=
  ⟨by decide, (C8_chunks_partition.1 Nat [10, 20, 30] 2 (by decide)).1,
   (C8_chunks_partition.1 Nat [10, 20, 30] 2 (by decide)).2⟩

/-- Stored rows are preserved as a prefix: the new list is the old list
with rows appended, never rewritten or truncated. -/
def grows {α : Type} (old new : List (Row α)) : Prop := ∃ tail, new = old ++ tail

theorem grows_refl {α : Type} (l : List (Row α)) : grows l l := ⟨[], by simp⟩

theorem grows_trans {α : Type} {a b c : List (Row α)} (h1 : grows a b)
    (h2 : grows b c) : grows a c := by
  obtain ⟨t1, h1⟩ := h1
  obtain ⟨t2, h2⟩ := h2
  exact ⟨t1 ++ t2, by rw [h2, h1, List.append_assoc]⟩

theorem grows_appendRows {α : Type} (db : DB α) (k nm : String)
    (rows : List (Row α)) :
    grows (rowsOf db nm) (rowsOf (appendRows db k rows) nm) :=
  rowsOf_appendRows db k nm rows

theorem downloadTable_grows {α : Type} (tle : α → α → Bool)
    (vendor : Vendor α) (today : Ymd) (t : String) (todate : Option String)
    (tc : Option (List α)) (db : DB α) (r : DlResult α) (db2 : DB α)
    (lg : List (FetchCall α))
    (h : downloadTable tle vendor today t todate tc db = (.ok (r, db2), lg)) :
    ∀ nm, grows (rowsOf db nm) (rowsOf db2 nm) := by
  intro nm
  unfold downloadTable at h
  cases hres : resolveWindow t todate today (lookupTable db t) with
  | error e => rw [hres] at h; simp at h
  | ok trip =>
    obtain ⟨dcol, ds, de⟩ := trip
    rw [hres] at h
    simp only [] at h
    cases hv : vendor (mkCall t dcol ds de tc) with
    | error e =>
      rw [hv] at h
      simp at h
      rw [← h.1.2]
      exact grows_refl _
    | ok rows =>
      rw [hv] at h
      simp only [] at h
      by_cases hr : rows.isEmpty
      · simp [hr] at h
        rw [← h.1.2]
        exact grows_refl _
      · simp [hr] at h
        rw [← h.1.2]
        exact grows_appendRows db (t ++ "_cumm") nm _

theorem processChunks_grows {α : Type} (tle : α → α → Bool)
    (vendor : Vendor α) (today : Ymd) (t : String) (todate : Option String) :
    ∀ (l : List (List α)) (db db2 : DB α) (lg : List (FetchCall α)),
      processChunks tle vendor today t todate l db = (.ok db2, lg) →
      ∀ nm, grows (rowsOf db nm) (rowsOf db2 nm) := by
  intro l
  induction l with
  | nil =>
    intro db db2 lg h nm
    simp [processChunks] at h
    rw [← h.1]
    exact grows_refl _
  | cons tc rest ih =>
    intro db db2 lg h nm
    unfold processChunks at h
    cases hdl : downloadTable tle vendor today t todate (some tc) db with
    | mk res lgd =>
      rw [hdl] at h
      cases res with
      | error e => simp only [] at h; simp at h
      | ok p =>
        obtain ⟨r, dbd⟩ := p
        have hg1 : ∀ nm2, grows (rowsOf db nm2) (rowsOf dbd nm2) :=
          downloadTable_grows tle vendor today t todate (some tc) db r dbd lgd hdl
        cases r with
        | errSentinel =>
          simp only [] at h
          cases hn2 : processChunks tle vendor today t todate rest dbd with
          | mk nr2 nlg2 =>
            rw [hn2] at h
            cases nr2 with
            | error e => simp at h
            | ok dbn =>
              simp at h
              rw [← h.1]
              exact grows_trans (hg1 nm) (ih dbd dbn nlg2 hn2 nm)
        | df rows =>
          simp only [] at h
          by_cases hr : rows.isEmpty
          · simp only [hr, if_true] at h
            cases hn2 : processChunks tle vendor today t todate rest dbd with
            | mk nr2 nlg2 =>
              rw [hn2] at h
              cases nr2 with
              | error e => simp at h
              | ok dbn =>
                simp at h
                rw [← h.1]
                exact grows_trans (hg1 nm) (ih dbd dbn nlg2 hn2 nm)
          · simp only [hr, Bool.false_eq_true, if_false] at h
            cases hn2 : processChunks tle vendor today t todate rest
                (accumulate_results rows t dbd) with
            | mk nr2 nlg2 =>
              rw [hn2] at h
              cases nr2 with
              | error e => simp at h
              | ok dbn =>
                simp at h
                rw [← h.1]
                refine grows_trans (hg1 nm) (grows_trans ?_ (ih _ dbn nlg2 hn2 nm))
                exact grows_appendRows dbd (t ++ "_cumm") nm rows

theorem consolidate_grows {α : Type} (t : String) (db : DB α) (nm : String)
    (hne : nm ≠ t ++ "_cumm") :
    grows (rowsOf db nm) (rowsOf (consolidate_results t db) nm) := by
  unfold consolidate_results
  cases hc : lookupTable db (t ++ "_cumm") with
  | none => exact grows_refl _
  | some rows =>
    simp only []
    have hdrop : ∀ (dbx : DB α),
        rowsOf (dropTable dbx (t ++ "_cumm")) nm = rowsOf dbx nm := by
      intro dbx
      unfold rowsOf
      rw [lookupTable_dropTable_ne dbx (t ++ "_cumm") nm hne]
    by_cases hr : rows.isEmpty
    · rw [if_pos hr, hdrop]
      exact grows_refl _
    · rw [if_neg hr, hdrop]
      exact grows_appendRows db t nm rows

theorem syncTable_grows {α : Type} [DecidableEq α] (tle : α → α → Bool)
    (vendor : Vendor α) (today : Ymd) (todate : Option String) (t : String)
    (db db2 : DB α) (lg : List (FetchCall α))
    (h : syncTable tle vendor today todate t db = (.ok db2, lg)) :
    ∀ nm, nm ≠ t ++ "_cumm" → grows (rowsOf db nm) (rowsOf db2 nm) := by
  intro nm hne
  unfold syncTable at h
  cases hinfo : tableInfo t with
  | none => rw [hinfo] at h; simp at h
  | some info =>
    obtain ⟨dcol, lbl, w⟩ := info
    rw [hinfo] at h
    simp only [] at h
    by_cases hw : 1 < w
    · rw [if_pos hw] at h
      cases hg : get_all_tickers tle db with
      | error e => rw [hg] at h; simp at h
      | ok tks =>
        rw [hg] at h
        simp only [] at h
        cases hp : processChunks tle vendor today t todate (chunks tks 1000) db with
        | mk pr plg =>
          rw [hp] at h
          cases pr with
          | error e => simp at h
          | ok dbp =>
            simp at h
            rw [← h.1]
            exact grows_trans
              (processChunks_grows tle vendor today t todate _ db dbp plg hp nm)
              (consolidate_grows t dbp nm hne)
    · rw [if_neg hw] at h
      cases hdl : downloadTable tle vendor today t todate none db with
      | mk res lgd =>
        rw [hdl] at h
        cases res with
        | error e => simp at h
        | ok p =>
          obtain ⟨r, dbd⟩ := p
          have hg1 : ∀ nm2, grows (rowsOf db nm2) (rowsOf dbd nm2) :=
            downloadTable_grows tle vendor today t todate none db r dbd lgd hdl
          cases r with
          | errSentinel =>
            simp at h
            rw [← h.1]
            exact hg1 nm
          | df rows =>
            simp only [] at h
            by_cases hr : rows.isEmpty
            · simp only [hr, if_true] at h
              simp at h
              rw [← h.1]
              exact grows_trans (hg1 nm) (consolidate_grows t dbd nm hne)
            · simp only [hr, Bool.false_eq_true, if_false] at h
              simp at h
              rw [← h.1]
              exact grows_trans (hg1 nm)
                (grows_trans (grows_appendRows dbd (t ++ "_cumm") nm rows)
                  (consolidate_grows t _ nm hne))

theorem runTables_grows {α : Type} [DecidableEq α] (tle : α → α → Bool)
    (vendor : Vendor α) (today : Ymd) (todate : Option String) :
    ∀ (ts : List String) (db db2 : DB α) (lg : List (FetchCall α)),
      runTables tle vendor today todate ts db = (.ok db2, lg) →
      ∀ nm, (∀ c ∈ allTableNames, nm ≠ c ++ "_cumm") →
      grows (rowsOf db nm) (rowsOf db2 nm) := by
  intro ts
  induction ts with
  | nil =>
    intro db db2 lg h nm _
    simp [runTables] at h
    rw [← h.1]
    exact grows_refl _
  | cons t rest ih =>
    intro db db2 lg h nm hnm
    unfold runTables at h
    cases hs : syncTable tle vendor today todate t db with
    | mk sr slg =>
      rw [hs] at h
      cases sr with
      | error e => simp at h
      | ok dbs =>
        simp only [] at h
        have hg1 : grows (rowsOf db nm) (rowsOf dbs nm) := by
          cases hinfo : tableInfo t with
          | none =>
            rw [syncTable_unknown tle vendor today todate t db hinfo] at hs
            simp at hs
          | some info =>
            exact syncTable_grows tle vendor today todate t db dbs slg hs nm
              (hnm t (tableInfo_mem t info hinfo))
        cases hn : runTables tle vendor today todate rest dbs with
        | mk nr nlg =>
          rw [hn] at h
          cases nr with
          | error e => simp at h
          | ok dbn =>
            simp at h
            rw [← h.1]
            exact grows_trans hg1 (ih dbs dbn nlg hn nm hnm)

/-- Claim C5, amended.  When no database file exists at the target path,
`db_exists` raises `ValueError` and the run aborts with nothing synced —
the file is not created and the sync does not proceed (the parent
directory is created as a side effect of `path_save`, but not the
database file).  The no-deletion half of the claim holds: a completed run
only ever appends to stored tables — for every name that is not a staging
(`_cumm`) name of a catalog table, the prior rows are a prefix of the
rows after the run. -/
theorem C5_missing_db_aborts_and_no_deletion {α : Type} [DecidableEq α]
    (tle : α → α → Bool) (vendor : Vendor α) (today : Ymd)
    (ts : List String) (todate : Option String) :
    runSync tle vendor today ts todate none = (.error (), []) ∧
      ∀ (db db2 : DB α) (lg : List (FetchCall α)),
        runSync tle vendor today ts todate (some db) = (.ok db2, lg) →
        ∀ nm, (∀ c ∈ allTableNames, nm ≠ c ++ "_cumm") →
        grows (rowsOf db nm) (rowsOf db2 nm) := by
  constructor
  · cases hst : set_tables ts <;> simp [runSync, hst]
  · intro db db2 lg h nm hnm
    unfold runSync at h
    cases hst : set_tables ts with
    | error e => rw [hst] at h; simp at h
    | ok tables =>
      rw [hst] at h
      exact runTables_grows tle vendor today todate tables db db2 lg h nm hnm

/-- Witness for C5: a run against a missing database file errors out, and
the concrete completed run of C7's witness preserves the stored `EVENTS`
rows as a prefix. -/
theorem C5_missing_db_aborts_and_no_deletion_witness :
    runSync nle vEmpty ⟨2020, 2, 5⟩ ["EVENTS"] none (none : Option (DB Nat)) =
        (.error (), []) ∧
      grows (rowsOf dbEvents "EVENTS") (rowsOf dbSecondRun "EVENTS") :=
  ⟨(C5_missing_db_aborts_and_no_deletion nle vEmpty ⟨2020, 2, 5⟩ ["EVENTS"]
      none).1,
   (C5_missing_db_aborts_and_no_deletion nle vEmpty ⟨2020, 2, 5⟩ ["EVENTS"]
      none).2 dbEvents dbSecondRun
      (runSync nle vEmpty ⟨2020, 2, 5⟩ ["EVENTS"] none (some dbEvents)).2
      (by rfl) "EVENTS" (by decide)⟩

/-- Counterexample to C5 as stated: on first use with no database file the
system does not "create the database file and proceed with the sync"; the
run fails immediately with zero vendor requests. -/
theorem C5_missing_db_not_created :
    runSync nle vEmpty ⟨2020, 2, 5⟩ [] none (none : Option (DB Nat)) =
      (.error (), []) := by decide

/-- Evaluation of the first fetch of a table with no stored data: the
window is `[todate - 7 days, todate]`, the fetched rows are sorted and
appended to the staging table, and the sorted dataframe is returned. -/
theorem downloadTable_first_fetch {α : Type} (tle : α → α → Bool)
    (vendor : Vendor α) (today : Ymd) (t dcol lbl : String) (w : Nat)
    (de : String) (ed : Ymd) (tc : List α) (db : DB α) (r1 : List (Row α))
    (hinfo : tableInfo t = some (dcol, lbl, w))
    (habs : lookupTable db t = none)
    (hparse : parseDate de = some ed)
    (hv : vendor (mkCall t dcol (subDays ed 7).fmt de (some tc)) = .ok r1)
    (hr1 : r1 ≠ []) :
    downloadTable tle vendor today t (some de) (some tc) db =
      (.ok (.df (sortRows tle t r1),
        appendRows db (t ++ "_cumm") (sortRows tle t r1)),
       [mkCall t dcol (subDays ed 7).fmt de (some tc)]) := by
  have hres : resolveWindow (α := α) t (some de) today none =
      .ok (dcol, (subDays ed 7).fmt, de) :=
    resolveWindow_absent t dcol lbl w (some de) today ed hinfo hparse
  unfold downloadTable
  rw [habs, hres]
  simp only [hv]
  have hre : r1.isEmpty = false := by
    cases r1 with
    | nil => exact absurd rfl hr1
    | cons a l => rfl
  simp [hre]

/-- Evaluation of a failing fetch of a table with no stored data: the
sentinel is returned and the database is untouched. -/
theorem downloadTable_first_fetch_err {α : Type} (tle : α → α → Bool)
    (vendor : Vendor α) (today : Ymd) (t dcol lbl : String) (w : Nat)
    (de : String) (ed : Ymd) (tc : List α) (db : DB α)
    (hinfo : tableInfo t = some (dcol, lbl, w))
    (habs : lookupTable db t = none)
    (hparse : parseDate de = some ed)
    (hv : vendor (mkCall t dcol (subDays ed 7).fmt de (some tc)) = .error ()) :
    downloadTable tle vendor today t (some de) (some tc) db =
      (.ok (.errSentinel, db),
       [mkCall t dcol (subDays ed 7).fmt de (some tc)]) := by
  have hres : resolveWindow (α := α) t (some de) today none =
      .ok (dcol, (subDays ed 7).fmt, de) :=
    resolveWindow_absent t dcol lbl w (some de) today ed hinfo hparse
  unfold downloadTable
  rw [habs, hres]
  simp [hv]

/-- Claim C1, settled against the code as written.  In a large-table sync
of three ticker batches where batch 2's fetch raises and batches 1 and 3
succeed, the failed batch is skipped and Consolidate still merges the
successful batches into the stored table — but each successfully fetched
row is appended TWICE, not once:  `download_table` writes the sorted
dataframe into the `_cumm` staging table (update.py line 270) and `main`
then passes the same returned dataframe to `accumulate_results`, which
appends it to the staging table again (lines 344 and 353), so the row
count appended by Consolidate is `2 * (|batch1| + |batch3|)` where the
specification requires `|batch1| + |batch3|`. -/
theorem C1_successful_batches_staged_twice {α : Type} [DecidableEq α] (tle : α → α → Bool)
    (vendor : Vendor α) (today : Ymd) (t dcol lbl : String) (w : Nat)
    (db : DB α) (tks c1 c2 c3 : List α) (de : String) (ed : Ymd)
    (r1 r3 : List (Row α))
    (hinfo : tableInfo t = some (dcol, lbl, w)) (hw : 1 < w)
    (htks : get_all_tickers tle db = .ok tks)
    (hch : chunks tks 1000 = [c1, c2, c3])
    (habs : lookupTable db t = none)
    (hstg : lookupTable db (t ++ "_cumm") = none)
    (hparse : parseDate de = some ed)
    (hv1 : vendor (mkCall t dcol (subDays ed 7).fmt de (some c1)) = .ok r1)
    (hv2 : vendor (mkCall t dcol (subDays ed 7).fmt de (some c2)) = .error ())
    (hv3 : vendor (mkCall t dcol (subDays ed 7).fmt de (some c3)) = .ok r3)
    (hr1 : r1 ≠ []) (hr3 : r3 ≠ []) :
    syncTable tle vendor today (some de) t db =
      (.ok (db ++ [(t, sortRows tle t r1 ++ sortRows tle t r1 ++
          sortRows tle t r3 ++ sortRows tle t r3)]),
       [mkCall t dcol (subDays ed 7).fmt de (some c1),
        mkCall t dcol (subDays ed 7).fmt de (some c2),
        mkCall t dcol (subDays ed 7).fmt de (some c3)]) ∧
      rowsOf (db ++ [(t, sortRows tle t r1 ++ sortRows tle t r1 ++
          sortRows tle t r3 ++ sortRows tle t r3)]) t =
        sortRows tle t r1 ++ sortRows tle t r1 ++
          sortRows tle t r3 ++ sortRows tle t r3 ∧
      (sortRows tle t r1 ++ sortRows tle t r1 ++
          sortRows tle t r3 ++ sortRows tle t r3).length =
        2 * (r1.length + r3.length) ∧
      lookupTable (db ++ [(t, sortRows tle t r1 ++ sortRows tle t r1 ++
          sortRows tle t r3 ++ sortRows tle t r3)]) (t ++ "_cumm") = none := by
  have hcu := ne_cumm t
  have hs1ne : sortRows tle t r1 ≠ [] := sortRows_ne_nil tle t r1 hr1
  have hs3ne : sortRows tle t r3 ≠ [] := sortRows_ne_nil tle t r3 hr3
  have hs1e : (sortRows tle t r1).isEmpty = false := by
    cases hx : sortRows tle t r1 with
    | nil => exact absurd hx hs1ne
    | cons a l => rfl
  have hs3e : (sortRows tle t r3).isEmpty = false := by
    cases hx : sortRows tle t r3 with
    | nil => exact absurd hx hs3ne
    | cons a l => rfl
  have habsA : ∀ (rows : List (Row α)) (dbx : DB α), lookupTable dbx t = none →
      lookupTable (appendRows dbx (t ++ "_cumm") rows) t = none := by
    intro rows dbx hx
    rw [lookupTable_appendRows_ne dbx (t ++ "_cumm") t rows hcu]
    exact hx
  have hdl1 := downloadTable_first_fetch tle vendor today t dcol lbl w de ed c1 db r1 hinfo habs
    hparse hv1 hr1
  have hdl2 := downloadTable_first_fetch_err tle vendor today t dcol lbl w de ed c2
    (appendRows (appendRows db (t ++ "_cumm") (sortRows tle t r1)) (t ++ "_cumm")
      (sortRows tle t r1))
    hinfo (habsA _ _ (habsA _ _ habs)) hparse hv2
  have hdl3 := downloadTable_first_fetch tle vendor today t dcol lbl w de ed c3
    (appendRows (appendRows db (t ++ "_cumm") (sortRows tle t r1)) (t ++ "_cumm")
      (sortRows tle t r1)) r3
    hinfo (habsA _ _ (habsA _ _ habs)) hparse hv3 hr3
  have hPC : processChunks tle vendor today t (some de) [c1, c2, c3] db =
      (.ok (appendRows (appendRows (appendRows (appendRows db (t ++ "_cumm")
          (sortRows tle t r1)) (t ++ "_cumm") (sortRows tle t r1)) (t ++ "_cumm")
          (sortRows tle t r3)) (t ++ "_cumm") (sortRows tle t r3)),
       [mkCall t dcol (subDays ed 7).fmt de (some c1),
        mkCall t dcol (subDays ed 7).fmt de (some c2),
        mkCall t dcol (subDays ed 7).fmt de (some c3)]) := by
    unfold processChunks
    rw [hdl1]
    simp only [hs1e, Bool.false_eq_true, if_false, accumulate_results]
    unfold processChunks
    rw [hdl2]
    simp only []
    unfold processChunks
    rw [hdl3]
    simp only [hs3e, Bool.false_eq_true, if_false, accumulate_results]
    simp [processChunks]
  have hSapp : appendRows (appendRows (appendRows (appendRows db (t ++ "_cumm")
      (sortRows tle t r1)) (t ++ "_cumm") (sortRows tle t r1)) (t ++ "_cumm")
      (sortRows tle t r3)) (t ++ "_cumm") (sortRows tle t r3) =
      appendRows db (t ++ "_cumm") (sortRows tle t r1 ++ sortRows tle t r1 ++
        sortRows tle t r3 ++ sortRows tle t r3) := by
    rw [appendRows_appendRows, appendRows_appendRows, appendRows_appendRows]
    simp [List.append_assoc]
  have hSne : (sortRows tle t r1 ++ sortRows tle t r1 ++
      sortRows tle t r3 ++ sortRows tle t r3).isEmpty = false := by
    cases hx : sortRows tle t r1 with
    | nil => exact absurd hx hs1ne
    | cons a l => simp [hx]
  have hdbD : appendRows db (t ++ "_cumm") (sortRows tle t r1 ++ sortRows tle t r1 ++
      sortRows tle t r3 ++ sortRows tle t r3) =
      db ++ [(t ++ "_cumm", sortRows tle t r1 ++ sortRows tle t r1 ++
        sortRows tle t r3 ++ sortRows tle t r3)] :=
    appendRows_absent db (t ++ "_cumm") _ hstg
  have hlookS : lookupTable (db ++ [(t ++ "_cumm", sortRows tle t r1 ++
      sortRows tle t r1 ++ sortRows tle t r3 ++ sortRows tle t r3)])
      (t ++ "_cumm") = some (sortRows tle t r1 ++ sortRows tle t r1 ++
        sortRows tle t r3 ++ sortRows tle t r3) := by
    rw [lookupTable_append_list, hstg]
    simp [lookupTable]
  have hlookT : lookupTable (db ++ [(t ++ "_cumm", sortRows tle t r1 ++
      sortRows tle t r1 ++ sortRows tle t r3 ++ sortRows tle t r3)]) t = none := by
    rw [lookupTable_append_list, habs]
    simp [lookupTable, Ne.symm hcu]
  have hconsEq : consolidate_results t (db ++ [(t ++ "_cumm",
      sortRows tle t r1 ++ sortRows tle t r1 ++ sortRows tle t r3 ++
        sortRows tle t r3)]) =
      db ++ [(t, sortRows tle t r1 ++ sortRows tle t r1 ++
        sortRows tle t r3 ++ sortRows tle t r3)] := by
    unfold consolidate_results
    rw [hlookS]
    simp only [hSne, Bool.false_eq_true, if_false]
    rw [appendRows_absent _ t _ hlookT]
    rw [List.append_assoc]
    exact dropTable_middle db _ (t ++ "_cumm") _ hstg
  refine ⟨?_, ?_, ?_, ?_⟩
  · unfold syncTable
    rw [hinfo]
    simp only []
    rw [if_pos hw, htks]
    simp only []
    rw [hch, hPC]
    simp only []
    rw [hSapp, hdbD, hconsEq]
  · rw [rowsOf, lookupTable_append_list, habs]
    simp [lookupTable]
  · simp [List.length_append, length_sortRows]
    ring
  · rw [lookupTable_append_list, hstg]
    simp [lookupTable, hcu]

theorem natsFrom_map_ticker (n : Nat) :
    ∀ k, ((natsFrom k n).map (fun j => Row.mk "" j)).map
      (fun r : Row Nat => r.ticker) = natsFrom k n := by
  induction n with
  | zero => intro k; simp [natsFrom]
  | succ n ih => intro k; simp [natsFrom, ih]

theorem sortLe_natsFrom (n : Nat) :
    ∀ k, sortLe nle (natsFrom k n) = natsFrom k n := by
  induction n with
  | zero => intro k; simp [natsFrom, sortLe]
  | succ n ih =>
    intro k
    show insertLe nle k (sortLe nle (natsFrom (k + 1) n)) = _
    rw [ih (k + 1)]
    cases n with
    | zero => simp [natsFrom, insertLe]
    | succ m =>
      show insertLe nle k ((k + 1) :: natsFrom (k + 2) m) = _
      have hk : nle k (k + 1) = true := by
        simp [nle]
      simp [insertLe, hk, natsFrom]

theorem dedupAdj_natsFrom (n : Nat) :
    ∀ k, dedupAdj (natsFrom k n) = natsFrom k n := by
  induction n with
  | zero => intro k; simp [natsFrom, dedupAdj]
  | succ n ih =>
    intro k
    cases n with
    | zero => simp [natsFrom, dedupAdj]
    | succ m =>
      show dedupAdj (k :: (k + 1) :: natsFrom (k + 2) m) = _
      have hne : ¬ (k = k + 1) := by omega
      have ih2 : dedupAdj ((k + 1) :: natsFrom (k + 2) m) = (k + 1) :: natsFrom (k + 2) m :=
        ih (k + 1)
      simp only [dedupAdj, if_neg hne]
      rw [ih2]
      rfl

/-- Witness database for C1: a `TICKERS` table of 2001 distinct tickers
(so `chunks` yields three batches of sizes 1000, 1000, 1). -/
def dbC1 : DB Nat := [("TICKERS", (natsFrom 0 2001).map (fun j => Row.mk "" j))]

/-- Witness vendor for C1: answers batch 1 (head ticker 0) with two rows,
batch 3 (head ticker 2000) with three rows, and raises on batch 2. -/
def vC1 : Vendor Nat := fun c =>
  match c.tickers with
  | some (0 :: _) => .ok [Row.mk "2020-01-26" 5, Row.mk "2020-01-27" 3]
  | some (2000 :: _) =>
    .ok [Row.mk "2020-01-28" 1, Row.mk "2020-01-26" 2, Row.mk "2020-01-29" 4]
  | _ => .error ()

theorem get_all_tickers_c1 : get_all_tickers nle dbC1 = .ok (natsFrom 0 2001) := by
  unfold get_all_tickers
  have hci : lookupTableCI dbC1 "tickers" =
      some ((natsFrom 0 2001).map (fun j => Row.mk "" j)) := by
    simp only [dbC1, lookupTableCI]
    rw [if_pos (by decide : upStr "TICKERS" = upStr "tickers")]
  rw [hci]
  simp only []
  rw [natsFrom_map_ticker, sortLe_natsFrom, dedupAdj_natsFrom]

theorem chunks_natsFrom_2001 : chunks (natsFrom 0 2001) 1000 =
    [natsFrom 0 1000, natsFrom 1000 1000, natsFrom 2000 1] := by
  have h1 : natsFrom 0 2001 = natsFrom 0 1000 ++ natsFrom 1000 1001 := by
    simpa using natsFrom_append 1000 0 1001
  have h2 : natsFrom 1000 1001 = natsFrom 1000 1000 ++ natsFrom 2000 1 := by
    simpa using natsFrom_append 1000 1000 1
  rw [h1, chunks_cons _ _ 1000 (by omega) (natsFrom_length 0 1000),
      h2, chunks_cons _ _ 1000 (by omega) (natsFrom_length 1000 1000),
      chunks_small _ _ (natsFrom_ne_nil 2000 1 (by omega))
        (by rw [natsFrom_length]; omega)]

/-- Witness for C1: the concrete three-batch `SF1` sync in which batch 2
fails; the stored table receives 10 rows — twice the 5 successfully
fetched ones. -/
theorem C1_successful_batches_staged_twice_witness :
    syncTable nle vC1 ⟨2020, 2, 15⟩ (some "2020-02-01") "SF1" dbC1 =
      (.ok (dbC1 ++ [("SF1",
          sortRows nle "SF1" [Row.mk "2020-01-26" 5, Row.mk "2020-01-27" 3] ++
          sortRows nle "SF1" [Row.mk "2020-01-26" 5, Row.mk "2020-01-27" 3] ++
          sortRows nle "SF1" [Row.mk "2020-01-28" 1, Row.mk "2020-01-26" 2,
            Row.mk "2020-01-29" 4] ++
          sortRows nle "SF1" [Row.mk "2020-01-28" 1, Row.mk "2020-01-26" 2,
            Row.mk "2020-01-29" 4])]),
       [mkCall "SF1" "lastupdated" (subDays ⟨2020, 2, 1⟩ 7).fmt "2020-02-01"
          (some (natsFrom 0 1000)),
        mkCall "SF1" "lastupdated" (subDays ⟨2020, 2, 1⟩ 7).fmt "2020-02-01"
          (some (natsFrom 1000 1000)),
        mkCall "SF1" "lastupdated" (subDays ⟨2020, 2, 1⟩ 7).fmt "2020-02-01"
          (some (natsFrom 2000 1))]) ∧
      (sortRows nle "SF1" [Row.mk "2020-01-26" 5, Row.mk "2020-01-27" 3] ++
        sortRows nle "SF1" [Row.mk "2020-01-26" 5, Row.mk "2020-01-27" 3] ++
        sortRows nle "SF1" [Row.mk "2020-01-28" 1, Row.mk "2020-01-26" 2,
          Row.mk "2020-01-29" 4] ++
        sortRows nle "SF1" [Row.mk "2020-01-28" 1, Row.mk "2020-01-26" 2,
          Row.mk "2020-01-29" 4]).length = 2 * (2 + 3) := by
  have H := C1_successful_batches_staged_twice nle vC1 ⟨2020, 2, 15⟩ "SF1" "lastupdated"
    "Core US Fndamentals" 7 dbC1 (natsFrom 0 2001) (natsFrom 0 1000)
    (natsFrom 1000 1000) (natsFrom 2000 1) "2020-02-01" ⟨2020, 2, 1⟩
    [Row.mk "2020-01-26" 5, Row.mk "2020-01-27" 3]
    [Row.mk "2020-01-28" 1, Row.mk "2020-01-26" 2, Row.mk "2020-01-29" 4]
    (by decide) (by decide) get_all_tickers_c1 chunks_natsFrom_2001 (by decide) (by decide) (by decide)
    rfl rfl rfl (by decide) (by decide)
  exact ⟨H.1, H.2.2.1⟩

end Sharadar
